import Mathlib

/-
Verification of wikidump_downloader.py: a shallow embedding of the task
queue, mirror selector, verification pass, coordinator slicing and worker
loop, together with theorems settling the specification claims.

Modelling conventions:
- Python values that may be None are modelled as Option.
- The filesystem seen by the worker is the list of paths that exist.
- The filesystem seen by verify is an association list from filename to
  the md5 digest of the current content of that file.
- Network transfers performed by urllib.request.urlretrieve are driven by
  an explicit list of outcomes (the outcome oracle); the unbounded retry
  loop of the worker is modelled by returning a "not completed" flag when
  the oracle is exhausted.
-/

namespace Wikidump

/-- The WIKIMEDIA_MIRRORS constant of the source. -/
def WIKIMEDIA_MIRRORS : List String :=
  ["https://dumps.wikimedia.org",
   "https://wikimedia.bringyour.com",
   "https://wikipedia.c3sl.ufpr.br",
   "https://mirror.clarkson.edu",
   "https://wikimedia.mirror.clarkson.edu",
   "https://wikipedia.mirror.pdapps.org"]

/-- State of the wikipediaMirror class: the single integer cursor. -/
structure wikipediaMirror where
  index : Nat
deriving DecidableEq, Repr

/-- The constructor of wikipediaMirror sets the cursor to 0. -/
def wikipediaMirror.init : wikipediaMirror := ⟨0⟩

/-- get_mirror from the source: advance the cursor (wrapping to 0 after the
last index) and return the mirror at the new cursor position. -/
def get_mirror (s : wikipediaMirror) : String × wikipediaMirror :=
  let idx := if s.index < WIKIMEDIA_MIRRORS.length - 1 then s.index + 1 else 0
  (WIKIMEDIA_MIRRORS.getD idx "", ⟨idx⟩)

/-- State of the WikiDumpTask class: the two remaining-task lists and the
fixed total captured at construction. The lock is not modelled; calls are
serialized, which is what the lock enforces. -/
structure WikiDumpTask where
  url_list : List String
  file_list : List String
  total_num : Nat
deriving DecidableEq, Repr

/-- The WikiDumpTask constructor: capture both lists and the length of the
url list as total_num. -/
def WikiDumpTask.mk0 (file_list url_list : List String) : WikiDumpTask :=
  ⟨url_list, file_list, url_list.length⟩

/-- assign_task from the source: url, file_name and cur_progress start as
None; when the remaining url list is non-empty, pop the head of both lists
and set cur_progress to total_num minus the remaining count after removal;
always return the 4-tuple together with total_num (an int, hence some). -/
def assign_task (s : WikiDumpTask) :
    (Option String × Option String × Option Nat × Option Nat) × WikiDumpTask :=
  if s.url_list.length > 0 then
    let url := s.url_list.head?
    let file_name := s.file_list.head?
    let url_list := s.url_list.tail
    let file_list := s.file_list.tail
    let cur_progress := s.total_num - url_list.length
    ((url, file_name, some cur_progress, some s.total_num),
     { s with url_list := url_list, file_list := file_list })
  else
    ((none, none, none, some s.total_num), s)

/-- Queue state after n successive assign_task calls. -/
def assignStates (q : WikiDumpTask) : Nat → WikiDumpTask
  | 0 => q
  | n + 1 => (assign_task (assignStates q n)).2

/-- Output of the (k+1)-th assign_task call (0-indexed k). -/
def assignOut (q : WikiDumpTask) (k : Nat) :
    Option String × Option String × Option Nat × Option Nat :=
  (assign_task (assignStates q k)).1

theorem assign_task_snd_url (s : WikiDumpTask) :
    (assign_task s).2.url_list = s.url_list.tail ∧
    (assign_task s).2.total_num = s.total_num := by
  unfold assign_task
  by_cases h : s.url_list.length > 0
  · simp [h]
  · have : s.url_list = [] := List.length_eq_zero.mp (by omega)
    simp [h, this]

theorem assignStates_url (files urls : List String) (n : Nat) :
    (assignStates (WikiDumpTask.mk0 files urls) n).url_list = urls.drop n ∧
    (assignStates (WikiDumpTask.mk0 files urls) n).total_num = urls.length := by
  induction n with
  | zero => exact ⟨rfl, rfl⟩
  | succ n ih =>
    have h := assign_task_snd_url (assignStates (WikiDumpTask.mk0 files urls) n)
    refine ⟨?_, ?_⟩
    · show (assign_task _).2.url_list = _
      rw [h.1, ih.1, List.tail_drop]
    · show (assign_task _).2.total_num = _
      rw [h.2, ih.2]

theorem assignStates_eq (files urls : List String)
    (hlen : files.length = urls.length) (n : Nat) :
    assignStates (WikiDumpTask.mk0 files urls) n =
      ⟨urls.drop n, files.drop n, urls.length⟩ := by
  induction n with
  | zero => rfl
  | succ n ih =>
    show (assign_task (assignStates (WikiDumpTask.mk0 files urls) n)).2 = _
    rw [ih]
    unfold assign_task
    by_cases h : (urls.drop n).length > 0
    · simp only [h, if_pos]
      simp [List.tail_drop]
    · have hu : urls.drop n = [] := List.length_eq_zero.mp (by omega)
      have hf : files.drop n = [] := by
        apply List.drop_eq_nil_of_le
        rw [hlen]
        have := List.drop_eq_nil_iff.mp hu
        omega
      have hu' : urls.drop (n + 1) = [] := by
        apply List.drop_eq_nil_of_le
        have := List.drop_eq_nil_iff.mp hu
        omega
      have hf' : files.drop (n + 1) = [] := by
        apply List.drop_eq_nil_of_le
        rw [hlen]
        have := List.drop_eq_nil_iff.mp hu
        omega
      simp [h, hu, hf, hu', hf']

/-- C1: for a queue built from N tasks, the k-th call (0-indexed k < N)
returns the k-th url and file of the original lists, position k+1
(1-based, strictly increasing), and the unchanged total N. -/
theorem C1_queue_order (files urls : List String)
    (hlen : files.length = urls.length) (k : Nat) (hk : k < urls.length) :
    assignOut (WikiDumpTask.mk0 files urls) k =
      (urls[k]?, files[k]?, some (k + 1), some urls.length) ∧
    urls[k]? ≠ none ∧ files[k]? ≠ none := by
  unfold assignOut
  rw [assignStates_eq files urls hlen k]
  unfold assign_task
  have hlen' : (urls.drop k).length > 0 := by
    rw [List.length_drop]; omega
  simp only [hlen', if_pos]
  refine ⟨?_, ?_, ?_⟩
  · have h1 : (urls.drop k).head? = urls[k]? := by
      rw [List.head?_drop]
    have h2 : (files.drop k).head? = files[k]? := by
      rw [List.head?_drop]
    simp [h1, h2]
    omega
  · simp [List.getElem?_eq_getElem hk]
  · have hk' : k < files.length := by omega
    simp [List.getElem?_eq_getElem hk']

theorem C1_queue_order_witness :
    assignOut (WikiDumpTask.mk0 ["f1", "f2"] ["u1", "u2"]) 1 =
      (["u1", "u2"][1]?, ["f1", "f2"][1]?, some 2, some 2) ∧
    ["u1", "u2"][1]? ≠ none ∧ ["f1", "f2"][1]? ≠ none :=
  C1_queue_order ["f1", "f2"] ["u1", "u2"] (by decide) 1 (by decide)

/-- C3 counterexample: on an exhausted queue built from one task, the
fourth output of assign_task is the actual total (some 1), not the void
sentinel none, contradicting the claim that all three remaining outputs
(task components, position, total) are void on an empty queue. -/
theorem C3_counterexample :
    (assign_task (assignStates (WikiDumpTask.mk0 ["f"] ["u"]) 1)).1 =
      (none, none, none, some 1) ∧
    (assign_task (assignStates (WikiDumpTask.mk0 ["f"] ["u"]) 1)).1.2.2.2 ≠
      none := by
  constructor
  · rfl
  · intro h
    simp [assignStates, assign_task, WikiDumpTask.mk0] at h

/-- C3 amended: on an empty remaining list, assign_task returns none for
the url, the file name and the position, does not block or raise, leaves
the state unchanged, and returns the actual unchanged total as the fourth
output. -/
theorem C3_empty_queue (s : WikiDumpTask) (h : s.url_list = []) :
    assign_task s = ((none, none, none, some s.total_num), s) := by
  unfold assign_task
  simp [h]

theorem C3_empty_queue_witness :
    assign_task ⟨[], [], 7⟩ = ((none, none, none, some 7), ⟨[], [], 7⟩) :=
  C3_empty_queue ⟨[], [], 7⟩ rfl

/-- C9: total_num is preserved by every assign_task call and the remaining
count either decreases by exactly one or is zero and stays zero; from a
queue built over N urls, after k calls the total is still N and the
remaining count is N - k, decreasing monotonically to zero. -/
theorem C9_invariant :
    (∀ s : WikiDumpTask,
      (assign_task s).2.total_num = s.total_num ∧
      ((assign_task s).2.url_list.length + 1 = s.url_list.length ∨
        (s.url_list.length = 0 ∧ (assign_task s).2.url_list.length = 0))) ∧
    (∀ (files urls : List String) (k : Nat),
      (assignStates (WikiDumpTask.mk0 files urls) k).total_num = urls.length ∧
      (assignStates (WikiDumpTask.mk0 files urls) k).url_list.length =
        urls.length - k) := by
  constructor
  · intro s
    have h := assign_task_snd_url s
    refine ⟨h.2, ?_⟩
    rw [h.1]
    rcases s.url_list with _ | ⟨a, l⟩
    · right; simp
    · left; simp
  · intro files urls k
    have h := assignStates_url files urls k
    exact ⟨h.2, by rw [h.1, List.length_drop]⟩

/-- Mirror cursor state after k get_mirror calls from a fresh instance. -/
def mirror_state : Nat → wikipediaMirror
  | 0 => wikipediaMirror.init
  | k + 1 => (get_mirror (mirror_state k)).2

/-- Mirror returned by the (k+1)-th get_mirror call (0-indexed k). -/
def nth_mirror (k : Nat) : String := (get_mirror (mirror_state k)).1

theorem mirror_state_index (k : Nat) : (mirror_state k).index = k % 6 := by
  induction k with
  | zero => rfl
  | succ k ih =>
    show (get_mirror (mirror_state k)).2.index = (k + 1) % 6
    unfold get_mirror
    simp only [ih]
    have h6 : WIKIMEDIA_MIRRORS.length - 1 = 5 := rfl
    rw [h6]
    have hlt : k % 6 < 6 := Nat.mod_lt _ (by omega)
    by_cases h : k % 6 < 5
    · simp only [h, if_pos]
      omega
    · simp only [h, if_neg, if_false]
      omega

theorem nth_mirror_eq (k : Nat) :
    nth_mirror k = WIKIMEDIA_MIRRORS.getD ((k + 1) % 6) "" := by
  unfold nth_mirror get_mirror
  simp only [mirror_state_index]
  have h6 : WIKIMEDIA_MIRRORS.length - 1 = 5 := rfl
  rw [h6]
  have hlt : k % 6 < 6 := Nat.mod_lt _ (by omega)
  by_cases h : k % 6 < 5
  · simp only [h, if_pos]
    congr 1
    omega
  · simp only [h, if_neg, if_false]
    congr 1
    omega

/-- C5: the first get_mirror call returns the mirror at index 1, not 0;
every call returns a member of the mirror list; the sequence of returned
mirrors is periodic with period 6 (the list size); the first 6 calls are
pairwise distinct and visit every mirror, wrapping to index 0 only on the
6th call, after the last index was reached. -/
theorem C5_mirror_rotation :
    nth_mirror 0 = "https://wikimedia.bringyour.com" ∧
    (get_mirror wikipediaMirror.init).2.index = 1 ∧
    (∀ k, nth_mirror k ∈ WIKIMEDIA_MIRRORS) ∧
    (∀ k, nth_mirror (k + 6) = nth_mirror k) ∧
    ((List.range 6).map nth_mirror).Nodup ∧
    (∀ m ∈ WIKIMEDIA_MIRRORS, m ∈ (List.range 6).map nth_mirror) ∧
    nth_mirror 4 = "https://wikipedia.mirror.pdapps.org" ∧
    nth_mirror 5 = "https://dumps.wikimedia.org" := by
  refine ⟨rfl, rfl, ?_, ?_, ?_, ?_, rfl, rfl⟩
  · intro k
    rw [nth_mirror_eq]
    have hlt : (k + 1) % 6 < WIKIMEDIA_MIRRORS.length := by
      show (k + 1) % 6 < 6
      exact Nat.mod_lt _ (by omega)
    rw [List.getD_eq_getElem?_getD, List.getElem?_eq_getElem hlt]
    simp only [Option.getD_some]
    exact List.getElem_mem hlt
  · intro k
    rw [nth_mirror_eq, nth_mirror_eq]
    congr 1
    omega
  · decide
  · decide

theorem C5_mirror_rotation_witness :
    nth_mirror 2 ∈ WIKIMEDIA_MIRRORS ∧
    "https://dumps.wikimedia.org" ∈ (List.range 6).map nth_mirror :=
  ⟨C5_mirror_rotation.2.2.1 2,
    C5_mirror_rotation.2.2.2.2.2.1 "https://dumps.wikimedia.org" (by decide)⟩

/-- Lookup in the local directory, modelled as an association list from
filename to the md5 digest of the content currently stored there. A some
result means the file exists (with that digest); none means it is absent.
This combines the file_path.exists() check and the md5 computation of the
source. -/
def fsLookup (fs : List (String × String)) (f : String) : Option String :=
  (fs.find? (fun p => p.1 == f)).map (fun p => p.2)

/-- os.remove on the modelled directory. -/
def fsRemove (fs : List (String × String)) (f : String) :
    List (String × String) :=
  fs.filter (fun p => p.1 != f)

/-- The loop body of verify from the source: walk the manifest entries
(filename, expected md5) in order; a present file with matching digest is
appended to pass_files, a present file with a mismatching digest is
appended to crash_files and removed from disk, an absent file is appended
to miss_files. Returns (pass_files, miss_files, crash_files, directory
after removals). -/
def verifyRun : List (String × String) → List (String × String) →
    List String × List String × List String × List (String × String)
  | [], fs => ([], [], [], fs)
  | (file, gt_md5) :: rest, fs =>
    match fsLookup fs file with
    | some file_md5 =>
      if file_md5 = gt_md5 then
        let r := verifyRun rest fs
        (file :: r.1, r.2.1, r.2.2.1, r.2.2.2)
      else
        let r := verifyRun rest (fsRemove fs file)
        (r.1, r.2.1, file :: r.2.2.1, r.2.2.2)
    | none =>
      let r := verifyRun rest fs
      (r.1, file :: r.2.1, r.2.2.1, r.2.2.2)

/-- verify from the source: run the classification loop and return True
exactly when there are zero missed and zero crashed files. -/
def verify (entries fs : List (String × String)) : Bool :=
  let r := verifyRun entries fs
  r.2.1.length == 0 && r.2.2.1.length == 0

/-- C10: each manifest entry is placed in exactly one of the three lists,
so the three counts reported by verify sum to the number of manifest
entries, for every manifest and every local directory state. -/
theorem C10_partition_count (entries fs : List (String × String)) :
    (verifyRun entries fs).1.length + (verifyRun entries fs).2.1.length +
      (verifyRun entries fs).2.2.1.length = entries.length := by
  induction entries generalizing fs with
  | nil => rfl
  | cons e rest ih =>
    obtain ⟨file, gt_md5⟩ := e
    show (verifyRun ((file, gt_md5) :: rest) fs).1.length + _ + _ = _
    unfold verifyRun
    rcases h : fsLookup fs file with _ | d
    · simp only [h]
      have := ih fs
      simp only [List.length_cons]
      omega
    · simp only [h]
      by_cases hd : d = gt_md5
      · rw [if_pos hd]
        have := ih fs
        simp only [List.length_cons]
        omega
      · simp only [if_neg hd]
        have := ih (fsRemove fs file)
        simp only [List.length_cons]
        omega

theorem fsLookup_fsRemove (fs : List (String × String)) (k f : String) :
    fsLookup (fsRemove fs k) f = if f = k then none else fsLookup fs f := by
  induction fs with
  | nil =>
    by_cases h : f = k <;> simp [fsLookup, fsRemove, h]
  | cons p rest ih =>
    unfold fsRemove at ih ⊢
    unfold fsLookup at ih ⊢
    by_cases hp : p.1 = k
    · rw [List.filter_cons]
      have : (p.1 != k) = false := by simp [hp]
      rw [this]
      simp only [Bool.false_eq_true, if_false]
      rw [ih]
      by_cases hf : f = k
      · simp [hf]
      · have hpf : (p.1 == f) = false := by
          simp [hp]
          intro hc
          exact hf (hc ▸ hp ▸ rfl)
        simp [hf, List.find?_cons, hpf]
    · rw [List.filter_cons]
      have : (p.1 != k) = true := by simp [hp]
      rw [this]
      simp only [if_true]
      by_cases hpf : p.1 = f
      · have hf : ¬f = k := fun h => hp (hpf.trans h)
        simp [List.find?_cons, hpf, hf]
      · have h1 : (p.1 == f) = false := by simp [hpf]
        simp only [List.find?_cons, h1]
        rw [ih]

theorem verifyRun_subset_keys (es : List (String × String)) :
    ∀ (fs : List (String × String)) (x : String),
      (x ∈ (verifyRun es fs).1 ∨ x ∈ (verifyRun es fs).2.1 ∨
        x ∈ (verifyRun es fs).2.2.1) → x ∈ es.map Prod.fst := by
  induction es with
  | nil =>
    intro fs x hx
    simp [verifyRun] at hx
  | cons e rest ih =>
    obtain ⟨file, gt⟩ := e
    intro fs x hx
    simp only [List.map_cons, List.mem_cons]
    unfold verifyRun at hx
    rcases h : fsLookup fs file with _ | d
    · simp only [h] at hx
      simp only [List.mem_cons] at hx
      rcases hx with h1 | (h1 | h1) | h1
      · exact Or.inr (ih fs x (Or.inl h1))
      · exact Or.inl h1
      · exact Or.inr (ih fs x (Or.inr (Or.inl h1)))
      · exact Or.inr (ih fs x (Or.inr (Or.inr h1)))
    · simp only [h] at hx
      by_cases hd : d = gt
      · rw [if_pos hd] at hx
        simp only [List.mem_cons] at hx
        rcases hx with (h1 | h1) | h1 | h1
        · exact Or.inl h1
        · exact Or.inr (ih fs x (Or.inl h1))
        · exact Or.inr (ih fs x (Or.inr (Or.inl h1)))
        · exact Or.inr (ih fs x (Or.inr (Or.inr h1)))
      · rw [if_neg hd] at hx
        simp only [List.mem_cons] at hx
        rcases hx with h1 | h1 | (h1 | h1)
        · exact Or.inr (ih _ x (Or.inl h1))
        · exact Or.inr (ih _ x (Or.inr (Or.inl h1)))
        · exact Or.inl h1
        · exact Or.inr (ih _ x (Or.inr (Or.inr h1)))

theorem verifyRun_lookup_none (es : List (String × String)) (f : String) :
    ∀ fs, fsLookup fs f = none →
      fsLookup (verifyRun es fs).2.2.2 f = none := by
  induction es with
  | nil => intro fs h; exact h
  | cons e rest ih =>
    obtain ⟨file, gt⟩ := e
    intro fs h
    unfold verifyRun
    rcases hl : fsLookup fs file with _ | d
    · simp only [hl]
      exact ih fs h
    · simp only [hl]
      by_cases hd : d = gt
      · rw [if_pos hd]
        exact ih fs h
      · rw [if_neg hd]
        apply ih
        rw [fsLookup_fsRemove]
        by_cases hf : f = file <;> simp [hf, h]

theorem verifyRun_classify (entries : List (String × String)) :
    ∀ fs : List (String × String), (entries.map Prod.fst).Nodup →
      ∀ e ∈ entries,
        (e.1 ∈ (verifyRun entries fs).1 ↔ fsLookup fs e.1 = some e.2) ∧
        (e.1 ∈ (verifyRun entries fs).2.1 ↔ fsLookup fs e.1 = none) ∧
        (e.1 ∈ (verifyRun entries fs).2.2.1 ↔
          ∃ d, fsLookup fs e.1 = some d ∧ d ≠ e.2) ∧
        (e.1 ∈ (verifyRun entries fs).2.2.1 →
          fsLookup (verifyRun entries fs).2.2.2 e.1 = none) := by
  induction entries with
  | nil => intro fs _ e he; simp at he
  | cons hd rest ih =>
    obtain ⟨file, gt⟩ := hd
    intro fs hnd e he
    rw [List.map_cons, List.nodup_cons] at hnd
    obtain ⟨hfile, hndr⟩ := hnd
    unfold verifyRun
    rcases List.mem_cons.mp he with rfl | he'
    · rcases hl : fsLookup fs file with _ | d
      · simp only [hl]
        refine ⟨?_, ?_, ?_, ?_⟩
        · constructor
          · intro h
            exact absurd (verifyRun_subset_keys rest fs file (Or.inl h)) hfile
          · intro h
            exact Option.noConfusion h
        · simp [hl]
        · constructor
          · intro h
            exact absurd
              (verifyRun_subset_keys rest fs file (Or.inr (Or.inr h))) hfile
          · rintro ⟨d, hsome, -⟩
            exact Option.noConfusion hsome
        · intro h
          exact absurd
            (verifyRun_subset_keys rest fs file (Or.inr (Or.inr h))) hfile
      · simp only [hl]
        by_cases hdgt : d = gt
        · rw [if_pos hdgt]
          refine ⟨?_, ?_, ?_, ?_⟩
          · simp [hl, hdgt]
          · constructor
            · intro h
              exact absurd
                (verifyRun_subset_keys rest fs file (Or.inr (Or.inl h))) hfile
            · intro h
              exact Option.noConfusion h
          · constructor
            · intro h
              exact absurd
                (verifyRun_subset_keys rest fs file (Or.inr (Or.inr h))) hfile
            · rintro ⟨d', hsome, hne⟩
              cases hsome
              exact absurd hdgt hne
          · intro h
            exact absurd
              (verifyRun_subset_keys rest fs file (Or.inr (Or.inr h))) hfile
        · rw [if_neg hdgt]
          refine ⟨?_, ?_, ?_, ?_⟩
          · constructor
            · intro h
              exact absurd (verifyRun_subset_keys rest _ file (Or.inl h)) hfile
            · intro h
              cases h
              exact absurd rfl hdgt
          · constructor
            · intro h
              exact absurd
                (verifyRun_subset_keys rest _ file (Or.inr (Or.inl h))) hfile
            · intro h
              exact Option.noConfusion h
          · exact iff_of_true (List.mem_cons_self _ _) ⟨d, rfl, hdgt⟩
          · intro _
            apply verifyRun_lookup_none
            rw [fsLookup_fsRemove]
            simp
    · have hin : e.1 ∈ rest.map Prod.fst := List.mem_map_of_mem Prod.fst he'
      have hne : e.1 ≠ file := fun h => hfile (h ▸ hin)
      rcases hl : fsLookup fs file with _ | d
      · simp only [hl]
        have IH := ih fs hndr e he'
        refine ⟨IH.1, ?_, IH.2.2.1, IH.2.2.2⟩
        rw [List.mem_cons]
        constructor
        · rintro (h | h)
          · exact absurd h hne
          · exact IH.2.1.mp h
        · intro h
          exact Or.inr (IH.2.1.mpr h)
      · simp only [hl]
        by_cases hdgt : d = gt
        · rw [if_pos hdgt]
          have IH := ih fs hndr e he'
          refine ⟨?_, IH.2.1, IH.2.2.1, IH.2.2.2⟩
          rw [List.mem_cons]
          constructor
          · rintro (h | h)
            · exact absurd h hne
            · exact IH.1.mp h
          · intro h
            exact Or.inr (IH.1.mpr h)
        · rw [if_neg hdgt]
          have IH := ih (fsRemove fs file) hndr e he'
          have hfs : fsLookup (fsRemove fs file) e.1 = fsLookup fs e.1 := by
            rw [fsLookup_fsRemove]
            simp [hne]
          rw [hfs] at IH
          refine ⟨IH.1, IH.2.1, ?_, ?_⟩
          · rw [List.mem_cons]
            constructor
            · rintro (h | h)
              · exact absurd h hne
              · exact IH.2.2.1.mp h
            · intro h
              exact Or.inr (IH.2.2.1.mpr h)
          · intro h
            rcases List.mem_cons.mp h with h' | h'
            · exact absurd h' hne
            · exact IH.2.2.2 h'

/-- C6: for every manifest with distinct filenames and every local
directory state, each manifest entry is classified as passed exactly when
it is present with matching digest, as missing exactly when it is absent,
and as crashed exactly when it is present with a mismatching digest, in
which case it is deleted from the directory as a side effect; and verify
returns true if and only if the missed and crashed counts are both zero. -/
theorem C6_verify_classification (entries fs : List (String × String))
    (hnd : (entries.map Prod.fst).Nodup) :
    (∀ e ∈ entries,
      (e.1 ∈ (verifyRun entries fs).1 ↔ fsLookup fs e.1 = some e.2) ∧
      (e.1 ∈ (verifyRun entries fs).2.1 ↔ fsLookup fs e.1 = none) ∧
      (e.1 ∈ (verifyRun entries fs).2.2.1 ↔
        ∃ d, fsLookup fs e.1 = some d ∧ d ≠ e.2) ∧
      (e.1 ∈ (verifyRun entries fs).2.2.1 →
        fsLookup (verifyRun entries fs).2.2.2 e.1 = none)) ∧
    (verify entries fs = true ↔
      (verifyRun entries fs).2.1.length = 0 ∧
      (verifyRun entries fs).2.2.1.length = 0) := by
  constructor
  · exact verifyRun_classify entries fs hnd
  · unfold verify
    simp

theorem C6_verify_classification_witness :
    ("B" ∈ (verifyRun [("A", "h1"), ("B", "h2"), ("C", "h3")]
        [("A", "h1"), ("C", "hX")]).2.1 ↔
      fsLookup [("A", "h1"), ("C", "hX")] "B" = none) ∧
    verify [("A", "h1"), ("B", "h2"), ("C", "h3")]
        [("A", "h1"), ("C", "hX")] = false :=
  ⟨((C6_verify_classification [("A", "h1"), ("B", "h2"), ("C", "h3")]
      [("A", "h1"), ("C", "hX")] (by decide)).1
      ("B", "h2") (by decide)).2.1, by decide⟩

/-- Lexicographic comparison of char lists by code point. -/
def charListLe : List Char → List Char → Bool
  | [], _ => true
  | _ :: _, [] => false
  | a :: as, b :: bs =>
    if a.toNat < b.toNat then true
    else if b.toNat < a.toNat then false
    else charListLe as bs

/-- Python string comparison: lexicographic on code points. -/
def strLe (a b : String) : Bool := charListLe a.data b.data

def insortStr (a : String) : List String → List String
  | [] => [a]
  | b :: l => if strLe a b then a :: b :: l else b :: insortStr a l

/-- Modelled library call: sorted(...) on a list of strings, as an
insertion sort under the Python string order. -/
def sortStrings : List String → List String
  | [] => []
  | a :: l => insortStr a (sortStrings l)

/-- Python index clamping for a slice bound on a list of length n. -/
def pyIndex (n : Nat) (i : Int) : Nat :=
  if i < 0 then (Int.ofNat n + i).toNat else min i.toNat n

/-- Python slice l[a:] with step 1. -/
def pySliceFrom (l : List String) (a : Int) : List String :=
  l.drop (pyIndex l.length a)

/-- Python slice l[a:b] with step 1. -/
def pySlice (l : List String) (a b : Int) : List String :=
  (l.drop (pyIndex l.length a)).take (pyIndex l.length b - pyIndex l.length a)

/-- The manifest-to-file-list computation of download: sort the manifest
filenames; when 0 < end and end does not exceed the file count, take
dump_files[start-1:end], otherwise take dump_files[start-1:]. -/
def download_dump_files (manifest_files : List String)
    (start end_ : Int) : List String :=
  let dump_files := sortStrings manifest_files
  if 0 < end_ ∧ end_ ≤ (dump_files.length : Int) then
    pySlice dump_files (start - 1) end_
  else
    pySliceFrom dump_files (start - 1)

/-- Task-queue construction in download: slice the sorted filename list,
then build the parallel local-path and url lists and the WikiDumpTask.
joinpath is modelled as appending after a slash, and the url of a file is
its manifest entry. -/
def download_build_task (manifest : List (String × String))
    (data_path : String) (start end_ : Int) : WikiDumpTask :=
  let dump_files := download_dump_files (manifest.map Prod.fst) start end_
  let file_list := dump_files.map (fun f => data_path ++ "/" ++ f)
  let url_list :=
    dump_files.map
      (fun f => (((manifest.find? (fun p => p.1 == f)).map Prod.snd)).getD "")
  WikiDumpTask.mk0 file_list url_list

theorem drop_min_length (l : List String) (a : Nat) :
    l.drop (min a l.length) = l.drop a := by
  rcases le_total a l.length with h | h
  · rw [min_eq_left h]
  · rw [min_eq_right h, List.drop_length, Eq.comm]
    exact List.drop_eq_nil_of_le h

/-- C7: the task list is the 1-based inclusive slice from start to end of
the sorted manifest filenames; when end is non-positive or exceeds the
file count the slice runs from start to the end of the sorted list; and
for a 5-entry manifest with start=2 and end=4, exactly the sorted entries
at positions 2, 3 and 4 are selected, in order. -/
theorem C7_slice (manifest_files : List String) (start end_ : Int)
    (hstart : 1 ≤ start) :
    (0 < end_ ∧ end_ ≤ ((sortStrings manifest_files).length : Int) →
      download_dump_files manifest_files start end_ =
        ((sortStrings manifest_files).drop (start - 1).toNat).take
          (end_ - start + 1).toNat) ∧
    (¬(0 < end_ ∧ end_ ≤ ((sortStrings manifest_files).length : Int)) →
      download_dump_files manifest_files start end_ =
        (sortStrings manifest_files).drop (start - 1).toNat) ∧
    download_dump_files ["e", "c", "a", "d", "b"] 2 4 = ["b", "c", "d"] := by
  refine ⟨?_, ?_, by decide⟩
  · intro hend
    unfold download_dump_files
    rw [if_pos hend]
    unfold pySlice pyIndex
    have h1 : ¬(start - 1 < 0) := by omega
    have h2 : ¬(end_ < 0) := by omega
    rw [if_neg h1, if_neg h2]
    rw [drop_min_length]
    by_cases hle : (start - 1).toNat ≤ (sortStrings manifest_files).length
    · rw [min_eq_left hle]
      congr 1
      omega
    · have hnil : (sortStrings manifest_files).drop (start - 1).toNat = [] :=
        List.drop_eq_nil_of_le (by omega)
      rw [hnil]
      simp
  · intro hend
    unfold download_dump_files
    rw [if_neg hend]
    unfold pySliceFrom pyIndex
    have h1 : ¬(start - 1 < 0) := by omega
    rw [if_neg h1]
    exact drop_min_length _ _

theorem C7_slice_witness :
    (0 < (4 : Int) ∧
      (4 : Int) ≤ ((sortStrings ["e", "c", "a", "d", "b"]).length : Int)) ∧
    download_dump_files ["e", "c", "a", "d", "b"] 2 4 =
      ((sortStrings ["e", "c", "a", "d", "b"]).drop ((2 : Int) - 1).toNat).take
        ((4 : Int) - 2 + 1).toNat :=
  ⟨⟨by decide, by decide⟩,
    (C7_slice ["e", "c", "a", "d", "b"] 2 4 (by decide)).1
      ⟨by decide, by decide⟩⟩

/-- Python runtime error raised by the worker prologue. -/
inductive PyError where
  | nameError : String → PyError
deriving DecidableEq, Repr

/-- An opener built from a proxy configuration. -/
structure Opener where
  proxies : String
deriving DecidableEq, Repr

/-- The worker prologue: the local name opener is bound only inside the
branch taken when args.proxies is truthy (a non-empty string); the
unconditional install_opener(opener) call then evaluates the name opener,
which raises NameError when that branch was not taken. -/
def workerSetup (proxies : String) : Except PyError Unit :=
  let opener : Option Opener :=
    if proxies ≠ "" then some ⟨proxies⟩ else none
  match opener with
  | some _ => Except.ok ()
  | none => Except.error (PyError.nameError "opener")

/-- Outcome of one urlretrieve call, as seen by the worker: success, a
failure raised after the destination file was created and partially
written, or a failure raised before the destination file was created. -/
inductive Outcome where
  | success : Outcome
  | failPartial : Outcome
  | failBeforeOpen : Outcome
deriving DecidableEq, Repr

/-- Modelled library call urllib.request.urlretrieve(dump_url, file_name):
it streams the response directly into the named destination file, so on
success the destination exists with full content, on a failure during the
transfer the partially written destination file is left in place, and on a
failure before the response opens no file is created. Returns the
filesystem (list of existing paths) and whether the call succeeded. -/
def urlretrieve (fs : List String) (file_name : String) :
    Outcome → List String × Bool
  | Outcome.success => (file_name :: fs, true)
  | Outcome.failPartial => (file_name :: fs, false)
  | Outcome.failBeforeOpen => (fs, false)

/-- The inner retry loop of the worker: on each iteration pick the next
mirror, attempt the transfer, and break on success or retry on failure.
The outcome oracle drives each attempt; an exhausted oracle models the
unbounded retry loop never terminating, reported as a false final flag.
Returns (filesystem, mirror state, attempted destinations, remaining
oracle, whether the loop completed with a success). -/
def retry_loop (url file_name : String) (fs : List String)
    (wm : wikipediaMirror) (attempts : List String) :
    List Outcome →
      List String × wikipediaMirror × List String × List Outcome × Bool
  | [] => (fs, wm, attempts, [], false)
  | o :: rest =>
    let m := get_mirror wm
    let _dump_url := m.1 ++ url
    let r := urlretrieve fs file_name o
    let attempts' := attempts ++ [file_name]
    if r.2 then (r.1, m.2, attempts', rest, true)
    else retry_loop url file_name r.1 m.2 attempts' rest

/-- The outer worker loop: claim a task; break when the claimed url is
falsy (None, or the empty string); skip the task when the destination
already exists; otherwise run the retry loop. The fuel argument bounds the
number of iterations; since every iteration pops one task, fuel exceeding
the queue length never runs out. Returns (queue, filesystem, mirror state,
attempted destinations, whether the loop exited through its break). -/
def worker_go :
    Nat → WikiDumpTask → List String → wikipediaMirror → List String →
      List Outcome →
      WikiDumpTask × List String × wikipediaMirror × List String × Bool
  | 0, t, fs, wm, attempts, _ => (t, fs, wm, attempts, false)
  | Nat.succ fuel, t, fs, wm, attempts, oc =>
    let r := assign_task t
    match r.1.1 with
    | none => (r.2, fs, wm, attempts, true)
    | some url =>
      if url = "" then (r.2, fs, wm, attempts, true)
      else
        let file_name := (r.1.2.1).getD ""
        if file_name ∈ fs then
          worker_go fuel r.2 fs wm attempts oc
        else
          let h := retry_loop url file_name fs wm attempts oc
          if h.2.2.2.2 then worker_go fuel r.2 h.1 h.2.1 h.2.2.1 h.2.2.2.1
          else (r.2, h.1, h.2.1, h.2.2.1, false)

/-- Result of one worker thread: the error it raised (if any), the final
queue, filesystem and mirror state, the destinations it attempted to
transfer, and whether it reached its normal exit. -/
structure WorkerRun where
  err : Option PyError
  tasks : WikiDumpTask
  fs : List String
  wm : wikipediaMirror
  attempts : List String
  completed : Bool
deriving DecidableEq, Repr

/-- The worker function: run the prologue, then drain the queue. When the
prologue raises, the loop is never entered: no task is claimed and no
transfer is attempted. -/
def worker (proxies : String) (tasks : WikiDumpTask) (fs : List String)
    (wm : wikipediaMirror) (oc : List Outcome) : WorkerRun :=
  match workerSetup proxies with
  | Except.error e => ⟨some e, tasks, fs, wm, [], false⟩
  | Except.ok _ =>
    let r := worker_go (tasks.url_list.length + 1) tasks fs wm [] oc
    ⟨none, r.1, r.2.1, r.2.2.1, r.2.2.2.1, r.2.2.2.2⟩

/-- C2: with the proxy option at its empty-string default, every worker
raises NameError("opener") at the install_opener call before claiming any
task: the queue is untouched and no transfer is attempted, whatever the
queue, filesystem, mirror state and network outcomes. -/
theorem C2_proxy_nameError (tasks : WikiDumpTask) (fs : List String)
    (wm : wikipediaMirror) (oc : List Outcome) :
    worker "" tasks fs wm oc =
      ⟨some (PyError.nameError "opener"), tasks, fs, wm, [], false⟩ := rfl

/-- C4: a transfer that fails mid-body leaves the partially written file
at the destination path, which then passes the worker existence check,
because urlretrieve streams directly into the final destination; here the
failed first attempt on a fresh directory leaves data/x.7z existing even
though the retry loop has not succeeded. -/
theorem C4_partial_file_persists :
    (retry_loop "/enwiki/x.7z" "data/x.7z" [] wikipediaMirror.init []
        [Outcome.failPartial]).2.2.2.2 = false ∧
    "data/x.7z" ∈
      (retry_loop "/enwiki/x.7z" "data/x.7z" [] wikipediaMirror.init []
        [Outcome.failPartial]).1 ∧
    (urlretrieve [] "data/x.7z" Outcome.failPartial).2 = false ∧
    "data/x.7z" ∈ (urlretrieve [] "data/x.7z" Outcome.failPartial).1 := by
  refine ⟨rfl, ?_, rfl, ?_⟩
  · show "data/x.7z" ∈ ["data/x.7z"]
    exact List.mem_singleton.mpr rfl
  · show "data/x.7z" ∈ ["data/x.7z"]
    exact List.mem_singleton.mpr rfl

theorem worker_go_all_exist (fuel : Nat) :
    ∀ (t : WikiDumpTask) (fs : List String) (wm : wikipediaMirror)
      (attempts : List String) (oc : List Outcome),
      (∀ f ∈ t.file_list, f ∈ fs) →
      t.url_list.length ≤ t.file_list.length →
      (worker_go fuel t fs wm attempts oc).2.1 = fs ∧
      (worker_go fuel t fs wm attempts oc).2.2.1 = wm ∧
      (worker_go fuel t fs wm attempts oc).2.2.2.1 = attempts := by
  induction fuel with
  | zero => intro t fs wm attempts oc _ _; exact ⟨rfl, rfl, rfl⟩
  | succ fuel ih =>
    intro t fs wm attempts oc hex hlen
    rcases ht : t.url_list with _ | ⟨u, us⟩
    · have h0 : (assign_task t).1.1 = none := by
        unfold assign_task
        simp [ht]
      simp [worker_go, h0]
    · rcases htf : t.file_list with _ | ⟨f, fsl⟩
      · rw [ht, htf] at hlen
        simp at hlen
      · have h1 : (assign_task t).1.1 = some u := by
          unfold assign_task
          simp [ht]
        have h2 : (assign_task t).1.2.1 = some f := by
          unfold assign_task
          simp [ht, htf]
        have h3 : (assign_task t).2.url_list = us ∧
            (assign_task t).2.file_list = fsl := by
          unfold assign_task
          simp [ht, htf]
        have hmem : f ∈ fs := by
          apply hex
          rw [htf]
          exact List.mem_cons_self _ _
        by_cases hu : u = ""
        · subst hu
          simp [worker_go, h1]
        · simp only [worker_go, h1, h2, Option.getD_some]
          rw [if_neg hu, if_pos hmem]
          apply ih
          · intro x hx
            apply hex
            rw [h3.2] at hx
            rw [htf]
            exact List.mem_cons_of_mem _ hx
          · rw [h3.1, h3.2]
            rw [ht, htf] at hlen
            simpa using hlen

/-- C8: a claimed task whose destination already exists is skipped with no
transfer attempt, the worker moving on to the next claim with filesystem,
mirror state and attempt list untouched; consequently a run over a queue
all of whose destinations already exist performs zero transfers and
leaves the filesystem unchanged. -/
theorem C8_skip_existing :
    (∀ (t : WikiDumpTask) (fs : List String) (wm : wikipediaMirror)
        (attempts : List String) (oc : List Outcome) (fuel : Nat)
        (url file_name : String),
      (assign_task t).1.1 = some url → url ≠ "" →
      (assign_task t).1.2.1 = some file_name → file_name ∈ fs →
      worker_go (fuel + 1) t fs wm attempts oc =
        worker_go fuel (assign_task t).2 fs wm attempts oc) ∧
    (∀ (files urls : List String) (fs : List String) (wm : wikipediaMirror)
        (oc : List Outcome),
      files.length = urls.length →
      (∀ f ∈ files, f ∈ fs) →
      (worker_go (urls.length + 1) (WikiDumpTask.mk0 files urls)
        fs wm [] oc).2.1 = fs ∧
      (worker_go (urls.length + 1) (WikiDumpTask.mk0 files urls)
        fs wm [] oc).2.2.2.1 = []) := by
  constructor
  · intro t fs wm attempts oc fuel url file_name hurl hu hfile hmem
    simp only [worker_go, hurl, hfile, Option.getD_some]
    rw [if_neg hu, if_pos hmem]
  · intro files urls fs wm oc hlen hex
    have h := worker_go_all_exist (urls.length + 1)
      (WikiDumpTask.mk0 files urls) fs wm [] oc hex (by simp [WikiDumpTask.mk0, hlen])
    exact ⟨h.1, h.2.2⟩

theorem C8_skip_existing_witness :
    (worker_go 2 (WikiDumpTask.mk0 ["data/a.7z"] ["/enwiki/a.7z"])
      ["data/a.7z"] wikipediaMirror.init [] []).2.1 = ["data/a.7z"] ∧
    (worker_go 2 (WikiDumpTask.mk0 ["data/a.7z"] ["/enwiki/a.7z"])
      ["data/a.7z"] wikipediaMirror.init [] []).2.2.2.1 = [] :=
  C8_skip_existing.2 ["data/a.7z"] ["/enwiki/a.7z"] ["data/a.7z"]
    wikipediaMirror.init [] (by decide) (by decide)

end Wikidump
